import Mathlib

/-!
Verification of the buffalo parallel dispatch layer
(`buffalo/parallel/base.py`) and of its top-k dot-product kernel
`dot_topn` (from `buffalo.parallel._core`, a compiled extension whose
source is not in the repository snapshot; it is modelled from the
specification).  Factor matrices are embedded as lists of rows of
rational numbers, numpy arrays carry an explicit dtype tag, and the
Python methods become pure Lean functions that also return the list of
kernel invocations they performed, so that "the kernel is never called"
and "what was passed to the kernel" are provable statements.
-/

/-- External entity keys (user/item ids) handled by the id manager. -/
abbrev Key := String

/-- A factor matrix: row-major dense matrix of real-valued vectors,
embedded with rational entries. -/
abbrev Mat := List (List ℚ)

/-- Numpy dtype tags relevant to this layer. -/
inductive DType
  | int32
  | float32
  deriving DecidableEq, Repr

/-- A one-dimensional numpy integer array (used for the candidate pool),
with its dtype tag. -/
structure NpIntVec where
  dtype : DType
  data : List Nat
  deriving DecidableEq, Repr

/-- A two-dimensional numpy integer array (the `out_keys` buffer). -/
structure IntArr2 where
  dtype : DType
  data : List (List Int)
  deriving DecidableEq, Repr

/-- A two-dimensional numpy float array (the `out_scores` buffer). -/
structure FloatArr2 where
  dtype : DType
  data : List (List ℚ)
  deriving DecidableEq, Repr

/-- Python exceptions raised by the dispatch layer. -/
inductive PyErr
  | runtimeError (msg : String)
  | valueError (msg : String)
  | notImplemented
  deriving DecidableEq, Repr

/-- A record of one invocation of the `dot_topn` kernel: the query row
indexes, the query factor matrix, the candidate factor matrix, the pool
array, `topk` and the worker count, in the order of the call site. -/
structure KernelCall where
  indexes : List Nat
  FP : Mat
  FQ : Mat
  pool : NpIntVec
  topk : Nat
  numWorkers : Nat

/-- The type of the top-k kernel taken as a parameter by the dispatch
functions: it receives the query indexes, the two factor matrices, the
pool, `topk` and the worker count, and yields the data written into the
`out_keys` and `out_scores` buffers. -/
abbrev Kernel := List Nat → Mat → Mat → NpIntVec → Nat → Nat →
  List (List Int) × List (List ℚ)

/-- The `topks` component of a result: either the raw int32 index array,
or (when `repr=True`) rows expanded to external identifiers. -/
inductive TopksOut
  | raw (a : IntArr2)
  | expanded (l : List (List Key))
  deriving DecidableEq, Repr

/-- State of an ALS-like algorithm object as seen by `ParALS` /
`ParBPRMF`: user factors `P`, item factors `Q`, the normalization flags
`opt._nrz_P` / `opt._nrz_Q`, the id manager tables, the id-to-index
resolution function and the worker count. -/
structure ALSState where
  P : Mat
  Q : Mat
  nrzP : Bool
  nrzQ : Bool
  resolve : String → Key → Option Nat
  itemids : Int → Key
  userids : Int → Key
  nf : Mat → Mat
  numWorkers : Nat

/-- State of a W2V-like algorithm object as seen by `ParW2V`: the factor
matrix `L0`, its normalization flag, the item id table, the resolution
function and the worker count. -/
structure W2VState where
  L0 : Mat
  nrzL0 : Bool
  resolve : String → Key → Option Nat
  itemids : Int → Key
  nf : Mat → Mat
  numWorkers : Nat

/-- Modelled from the spec: `Algo.normalize(group=...)` (code not under
`src/`; the spec treats normalization of factor vectors as an available
collaborator operation).  Normalizing the `item` group rewrites `Q` and
sets `_nrz_Q`; the `user` group rewrites `P` and sets `_nrz_P`; the
actual vector normalization is the abstract `nf` field. -/
def alsNormalize (st : ALSState) (group : String) : ALSState :=
  if group = "item" then
    if st.nrzQ then st else { st with Q := st.nf st.Q, nrzQ := true }
  else if group = "user" then
    if st.nrzP then st else { st with P := st.nf st.P, nrzP := true }
  else st

/-- Modelled from the spec: `Algo.normalize(group='item')` for the W2V
model rewrites `L0` and sets its normalization flag. -/
def w2vNormalize (st : W2VState) : W2VState :=
  if st.nrzL0 then st else { st with L0 := st.nf st.L0, nrzL0 := true }

/-- Modelled from the spec: `Algo.get_index_pool` (code not under
`src/`) resolves each external key of a requested pool to an optional
row index and the pool keeps exactly the valid rows; the emptiness check
`if len(pool) == 0: raise RuntimeError('pool is empty')` and the
`pool = np.array([], dtype=np.int32)` default for an absent pool are
from `base.py`. -/
def translatePool (resolve : String → Key → Option Nat) (group : String)
    (pool : Option (List Key)) : Except PyErr NpIntVec :=
  match pool with
  | some p =>
      let pr := (p.map (resolve group)).filterMap id
      if pr.length = 0 then .error (.runtimeError "pool is empty")
      else .ok ⟨.int32, pr⟩
  | none => .ok ⟨.int32, []⟩

/-- Dot product of two factor rows (`QueryFactors[q] · CandidateFactors[c]`). -/
def dotProd (u v : List ℚ) : ℚ := (List.zipWith (fun a b => a * b) u v).sum

/-- Row `i` of a factor matrix. -/
def rowAt (M : Mat) (i : Nat) : List ℚ := M.getD i []

/-- Modelled from the spec: the effective candidate set of the kernel —
the pool when non-empty, otherwise every row of the candidate matrix. -/
def eligibleRows (C : Mat) (pool : List Nat) : List Nat :=
  if pool.isEmpty then List.range C.length else pool

/-- Score every eligible candidate row against one query vector. -/
def scoredCands (qv : List ℚ) (C : Mat) (cands : List Nat) : List (Nat × ℚ) :=
  cands.map fun c => (c, dotProd qv (rowAt C c))

/-- The kernel's result ordering on (candidate index, score) pairs:
higher score first, ties broken by ascending candidate index. -/
def slotBefore (a b : Nat × ℚ) : Prop := b.2 < a.2 ∨ (a.2 = b.2 ∧ a.1 ≤ b.1)

instance : DecidableRel slotBefore := fun a b => by
  unfold slotBefore; exact inferInstance

instance : IsTotal (Nat × ℚ) slotBefore := by
  constructor
  intro a b
  rcases lt_trichotomy a.2 b.2 with h | h | h
  · exact Or.inr (Or.inl h)
  · rcases Nat.le_total a.1 b.1 with h1 | h1
    · exact Or.inl (Or.inr ⟨h, h1⟩)
    · exact Or.inr (Or.inr ⟨h.symm, h1⟩)
  · exact Or.inl (Or.inl h)

instance : IsTrans (Nat × ℚ) slotBefore := by
  constructor
  intro a b c hab hbc
  rcases hab with hab | ⟨hab, hab'⟩
  · rcases hbc with hbc | ⟨hbc, _⟩
    · exact Or.inl (lt_trans hbc hab)
    · exact Or.inl (hbc ▸ hab)
  · rcases hbc with hbc | ⟨hbc, hbc'⟩
    · exact Or.inl (hab ▸ hbc)
    · exact Or.inr ⟨hab.trans hbc, hab'.trans hbc'⟩

/-- The result ordering carried over to the output slot type
(int32 key, float score): higher score first, equal scores by ascending
key. -/
def slotBeforeI (a b : Int × ℚ) : Prop := b.2 < a.2 ∨ (a.2 = b.2 ∧ a.1 ≤ b.1)

instance : DecidableRel slotBeforeI := fun a b => by
  unfold slotBeforeI; exact inferInstance

/-- Modelled from the spec: per-query top-K selection of the kernel —
sort the scored candidates by descending score with ascending-index
tie-break, keep the first `topk`, and pad missing slots with key `-1`
and score `0` (the untouched `np.zeros` buffer content). -/
def selectTopk (topk : Nat) (l : List (Nat × ℚ)) : List (Int × ℚ) :=
  let s := (List.insertionSort slotBefore l).take topk
  s.map (fun p => ((p.1 : Int), p.2)) ++ List.replicate (topk - s.length) (-1, 0)

/-- Modelled from the spec: the `dot_topn` kernel of
`buffalo.parallel._core` (compiled extension, not under `src/`).  For
each query row index it scores the effective candidate set by dot
product and writes the top-`topk` (key, score) slots; the result is
independent of the worker count. -/
def dotTopn (indexes : List Nat) (FP FQ : Mat) (pool : NpIntVec)
    (topk : Nat) (_numWorkers : Nat) : List (List Int) × List (List ℚ) :=
  let rows := indexes.map fun q =>
    selectTopk topk (scoredCands (rowAt FP q) FQ (eligibleRows FQ pool.data))
  (rows.map (List.map Prod.fst), rows.map (List.map Prod.snd))

/-- `Parallel._most_similar` (`base.py` lines 22-26): allocate the
int32 `out_keys` and float32 `out_scores` buffers of shape
`(len(indexes), topk)`, invoke `dot_topn(indexes, Factor, Factor, ...)`
which fills them in place, and return them.  The performed kernel call
is recorded. -/
def parallelMostSimilar (K : Kernel) (numWorkers : Nat) (indexes : List Nat)
    (Factor : Mat) (topk : Nat) (pool : NpIntVec) :
    (IntArr2 × FloatArr2) × List KernelCall :=
  let outKeys : IntArr2 :=
    ⟨.int32, List.replicate indexes.length (List.replicate topk 0)⟩
  let outScores : FloatArr2 :=
    ⟨.float32, List.replicate indexes.length (List.replicate topk 0)⟩
  let r := K indexes Factor Factor pool topk numWorkers
  ((⟨outKeys.dtype, r.1⟩, ⟨outScores.dtype, r.2⟩),
    [⟨indexes, Factor, Factor, pool, topk, numWorkers⟩])

/-- `Parallel._topk_recommendation` (`base.py` lines 46-50): like
`_most_similar` but with distinct query factors `FactorP` and candidate
factors `FactorQ`. -/
def parallelTopkRecommendation (K : Kernel) (numWorkers : Nat)
    (indexes : List Nat) (FactorP FactorQ : Mat) (topk : Nat)
    (pool : NpIntVec) : (IntArr2 × FloatArr2) × List KernelCall :=
  let outKeys : IntArr2 :=
    ⟨.int32, List.replicate indexes.length (List.replicate topk 0)⟩
  let outScores : FloatArr2 :=
    ⟨.float32, List.replicate indexes.length (List.replicate topk 0)⟩
  let r := K indexes FactorP FactorQ pool topk numWorkers
  ((⟨outKeys.dtype, r.1⟩, ⟨outScores.dtype, r.2⟩),
    [⟨indexes, FactorP, FactorQ, pool, topk, numWorkers⟩])

/-- The `repr=True` expansion (`base.py` lines 91, 96, 117):
`[[ids[t] for t in tt if t != -1] for tt in topks]`. -/
def expandIds (ids : Int → Key) (rows : List (List Int)) : List (List Key) :=
  rows.map fun tt => (tt.filter (fun t => t != -1)).map ids

/-- `ParALS.most_similar` (`base.py` lines 75-98): normalize the group,
resolve the query keys dropping unresolved ones, translate the pool
(raising on an explicitly supplied pool that resolves empty), then for
group `item` or `user` call `_most_similar` with `self.algo.Q` as the
factor matrix and return `(topks, scores)`, expanding ids when
`repr=True`; any other group raises `ValueError`. -/
def parALSMostSimilar (K : Kernel) (st : ALSState) (keys : List Key)
    (topk : Nat) (group : String) (pool : Option (List Key)) (rep : Bool) :
    Except PyErr (ALSState × TopksOut × FloatArr2) × List KernelCall :=
  let st1 := alsNormalize st group
  let idxs := keys.map (st1.resolve group)
  let indexes := idxs.filterMap id
  match translatePool st1.resolve group pool with
  | .error e => (.error e, [])
  | .ok parr =>
    if group = "item" then
      let r := parallelMostSimilar K st1.numWorkers indexes st1.Q topk parr
      let topks := if rep then TopksOut.expanded (expandIds st1.itemids r.1.1.data)
        else TopksOut.raw r.1.1
      (.ok (st1, topks, r.1.2), r.2)
    else if group = "user" then
      let r := parallelMostSimilar K st1.numWorkers indexes st1.Q topk parr
      let topks := if rep then TopksOut.expanded (expandIds st1.userids r.1.1.data)
        else TopksOut.raw r.1.1
      (.ok (st1, topks, r.1.2), r.2)
    else (.error (.valueError ("Not supported group: " ++ group)), [])

/-- `ParALS.topk_recommendation` (`base.py` lines 100-118): refuse
normalized factors, resolve the query keys keeping the surviving keys,
translate the pool, call `_topk_recommendation` with `P` and `Q`, and
return `(keys, topks, scores)`. -/
def parALSTopkRecommendation (K : Kernel) (st : ALSState) (keys : List Key)
    (topk : Nat) (pool : Option (List Key)) (rep : Bool) :
    Except PyErr (ALSState × List Key × TopksOut × FloatArr2) × List KernelCall :=
  if st.nrzP || st.nrzQ then
    (.error (.runtimeError "Cannot make topk recommendation with normalized factors"), [])
  else
    let idxs := keys.map (st.resolve "user")
    let keys1 := (keys.zip idxs).filterMap fun ki =>
      if ki.2.isSome then some ki.1 else none
    let indexes := idxs.filterMap id
    match translatePool st.resolve "item" pool with
    | .error e => (.error e, [])
    | .ok parr =>
      let r := parallelTopkRecommendation K st.numWorkers indexes st.P st.Q topk parr
      let topks := if rep then TopksOut.expanded (expandIds st.itemids r.1.1.data)
        else TopksOut.raw r.1.1
      (.ok (st, keys1, topks, r.1.2), r.2)

/-- `ParBPRMF.topk_recommendation` (`base.py` lines 122-123): the
operation is unsupported and raising is all it does. -/
def parBPRMFTopkRecommendation (_K : Kernel) (_st : ALSState)
    (_keys : List Key) (_topk : Nat) (_pool : Option (List Key))
    (_rep : Bool) :
    Except PyErr (ALSState × List Key × TopksOut × FloatArr2) × List KernelCall :=
  (.error .notImplemented, [])

/-- `ParW2V.most_similar` (`base.py` lines 131-147): like the ALS
version but always on the `item` group with factor matrix `L0`. -/
def parW2VMostSimilar (K : Kernel) (st : W2VState) (keys : List Key)
    (topk : Nat) (pool : Option (List Key)) (rep : Bool) :
    Except PyErr (W2VState × TopksOut × FloatArr2) × List KernelCall :=
  let st1 := w2vNormalize st
  let idxs := keys.map (st1.resolve "item")
  let indexes := idxs.filterMap id
  match translatePool st1.resolve "item" pool with
  | .error e => (.error e, [])
  | .ok parr =>
    let r := parallelMostSimilar K st1.numWorkers indexes st1.L0 topk parr
    let topks := if rep then TopksOut.expanded (expandIds st1.itemids r.1.1.data)
      else TopksOut.raw r.1.1
    (.ok (st1, topks, r.1.2), r.2)

/-- `ParW2V.topk_recommendation` (`base.py` lines 149-150): unsupported. -/
def parW2VTopkRecommendation (_K : Kernel) (_st : W2VState)
    (_keys : List Key) (_topk : Nat) (_pool : Option (List Key)) :
    Except PyErr (W2VState × List Key × TopksOut × FloatArr2) × List KernelCall :=
  (.error .notImplemented, [])

/-- The ordering claimed for a full output row: every pair of the
`topk` (key, score) slots in descending score order, with equal scores
ordered by ascending key. -/
def rowSlotsSorted (kr : List Int) (sr : List ℚ) : Prop :=
  List.Pairwise slotBeforeI (kr.zip sr)

/-- A concrete ALS algorithm state used for evaluating the theorems on
explicit inputs: two 1-dimensional factors, one resolvable key "a". -/
def stA : ALSState := {
  P := [[(1 : ℚ)], [0]]
  Q := [[(1 : ℚ)], [0]]
  nrzP := false
  nrzQ := false
  resolve := fun _ k => if k = "a" then some 0 else none
  itemids := fun _ => "it"
  userids := fun _ => "us"
  nf := id
  numWorkers := 1 }

/-- The concrete state `stA` with normalized user factors. -/
def stN : ALSState := { stA with nrzP := true }

/-- A concrete ALS state whose id resolution finds no key. -/
def stE : ALSState := { stA with resolve := fun _ _ => none }

/-- A concrete W2V algorithm state used for evaluating the theorems. -/
def stW : W2VState := {
  L0 := [[(1 : ℚ)], [0]]
  nrzL0 := false
  resolve := fun _ k => if k = "a" then some 0 else none
  itemids := fun _ => "it"
  nf := id
  numWorkers := 1 }

/-! ## Helper lemmas -/

theorem selectTopk_length (topk : Nat) (l : List (Nat × ℚ)) :
    (selectTopk topk l).length = topk := by
  unfold selectTopk
  simp only [List.length_append, List.length_map, List.length_replicate,
    List.length_take]
  omega

theorem dotTopn_shape (indexes : List Nat) (FP FQ : Mat) (pool : NpIntVec)
    (topk nw : Nat) :
    (dotTopn indexes FP FQ pool topk nw).1.length = indexes.length ∧
    (dotTopn indexes FP FQ pool topk nw).2.length = indexes.length ∧
    (∀ row ∈ (dotTopn indexes FP FQ pool topk nw).1, row.length = topk) ∧
    (∀ row ∈ (dotTopn indexes FP FQ pool topk nw).2, row.length = topk) := by
  unfold dotTopn
  refine ⟨by simp, by simp, ?_, ?_⟩ <;>
  · intro row hrow
    simp only [List.map_map, List.mem_map, Function.comp] at hrow
    obtain ⟨q, _, rfl⟩ := hrow
    simp [selectTopk_length]

theorem alsNormalize_resolve (st : ALSState) (g : String) :
    (alsNormalize st g).resolve = st.resolve := by
  unfold alsNormalize
  split
  · split <;> rfl
  · split
    · split <;> rfl
    · rfl

theorem alsNormalize_numWorkers (st : ALSState) (g : String) :
    (alsNormalize st g).numWorkers = st.numWorkers := by
  unfold alsNormalize
  split
  · split <;> rfl
  · split
    · split <;> rfl
    · rfl

theorem w2vNormalize_resolve (st : W2VState) :
    (w2vNormalize st).resolve = st.resolve := by
  unfold w2vNormalize
  split <;> rfl

/-- The taken (non-padding) part of a `selectTopk` row is sorted by the
kernel ordering, and filtering out the `-1` sentinel recovers exactly
that part. -/
theorem selectTopk_filter_sorted (topk : Nat) (l : List (Nat × ℚ)) :
    List.Pairwise slotBeforeI
      ((selectTopk topk l).filter (fun p => p.1 != -1)) := by
  unfold selectTopk
  rw [List.filter_append]
  have hpad : (List.replicate (topk - ((List.insertionSort slotBefore l).take topk).length)
      ((-1 : Int), (0 : ℚ))).filter (fun p => p.1 != -1) = [] := by
    rw [List.filter_replicate]
    simp
  have hkeep : (((List.insertionSort slotBefore l).take topk).map
      (fun p => ((p.1 : Int), p.2))).filter (fun p => p.1 != -1) =
      ((List.insertionSort slotBefore l).take topk).map
        (fun p => ((p.1 : Int), p.2)) := by
    rw [List.filter_eq_self]
    intro a ha
    simp only [List.mem_map] at ha
    obtain ⟨p, _, rfl⟩ := ha
    simp only [bne_iff_ne, ne_eq]
    omega
  rw [hpad, hkeep, List.append_nil]
  have hsorted : List.Pairwise slotBefore
      ((List.insertionSort slotBefore l).take topk) :=
    List.Pairwise.sublist (List.take_sublist topk _)
      (List.sorted_insertionSort slotBefore l)
  refine hsorted.map _ ?_
  intro a b hab
  rcases hab with h | ⟨h, h'⟩
  · exact Or.inl h
  · refine Or.inr ⟨h, ?_⟩
    show (a.1 : Int) ≤ (b.1 : Int)
    exact_mod_cast h'

/-- Each row of the kernel output, viewed as (key, score) slots, equals
the corresponding per-query `selectTopk` row. -/
theorem dotTopn_zip_rows (indexes : List Nat) (FP FQ : Mat) (pool : NpIntVec)
    (topk nw : Nat) (kr : List Int) (sr : List ℚ)
    (h : (kr, sr) ∈ (dotTopn indexes FP FQ pool topk nw).1.zip
      (dotTopn indexes FP FQ pool topk nw).2) :
    ∃ q ∈ indexes, kr.zip sr =
      selectTopk topk (scoredCands (rowAt FP q) FQ (eligibleRows FQ pool.data)) := by
  unfold dotTopn at h
  simp only [List.map_map] at h
  rw [List.zip_map'] at h
  simp only [List.mem_map, Function.comp] at h
  obtain ⟨q, hq, hpair⟩ := h
  refine ⟨q, hq, ?_⟩
  have h1 : kr = (selectTopk topk (scoredCands (rowAt FP q) FQ
      (eligibleRows FQ pool.data))).map Prod.fst := congrArg Prod.fst hpair.symm
  have h2 : sr = (selectTopk topk (scoredCands (rowAt FP q) FQ
      (eligibleRows FQ pool.data))).map Prod.snd := congrArg Prod.snd hpair.symm
  rw [h1, h2, List.zip_map']
  exact List.map_id' _

/-! ## Claim theorems -/

/-- C1: For every call wrapped by `Parallel._most_similar` and
`Parallel._topk_recommendation` (with the spec-modelled `dot_topn`
kernel), the returned `out_keys` and `out_scores` arrays have exactly
`len(indexes)` rows and exactly `topk` columns, `out_keys` with int32
dtype and `out_scores` with float32 dtype. -/
theorem wrapped_topk_output_shape_dtype (nw : Nat) (idx : List Nat)
    (F FP FQ : Mat) (topk : Nat) (pool : NpIntVec) :
    ((parallelMostSimilar dotTopn nw idx F topk pool).1.1.dtype = DType.int32 ∧
     (parallelMostSimilar dotTopn nw idx F topk pool).1.2.dtype = DType.float32 ∧
     (parallelMostSimilar dotTopn nw idx F topk pool).1.1.data.length = idx.length ∧
     (parallelMostSimilar dotTopn nw idx F topk pool).1.2.data.length = idx.length ∧
     (∀ row ∈ (parallelMostSimilar dotTopn nw idx F topk pool).1.1.data,
        row.length = topk) ∧
     (∀ row ∈ (parallelMostSimilar dotTopn nw idx F topk pool).1.2.data,
        row.length = topk)) ∧
    ((parallelTopkRecommendation dotTopn nw idx FP FQ topk pool).1.1.dtype = DType.int32 ∧
     (parallelTopkRecommendation dotTopn nw idx FP FQ topk pool).1.2.dtype = DType.float32 ∧
     (parallelTopkRecommendation dotTopn nw idx FP FQ topk pool).1.1.data.length = idx.length ∧
     (parallelTopkRecommendation dotTopn nw idx FP FQ topk pool).1.2.data.length = idx.length ∧
     (∀ row ∈ (parallelTopkRecommendation dotTopn nw idx FP FQ topk pool).1.1.data,
        row.length = topk) ∧
     (∀ row ∈ (parallelTopkRecommendation dotTopn nw idx FP FQ topk pool).1.2.data,
        row.length = topk)) := by
  obtain ⟨h1, h2, h3, h4⟩ := dotTopn_shape idx F F pool topk nw
  obtain ⟨g1, g2, g3, g4⟩ := dotTopn_shape idx FP FQ pool topk nw
  exact ⟨⟨rfl, rfl, h1, h2, h3, h4⟩, ⟨rfl, rfl, g1, g2, g3, g4⟩⟩

/-- C1 (witness): concrete instance of the shape property — one query
against a 2-row factor matrix with `topk = 2`. -/
theorem wrapped_topk_output_shape_dtype_witness :
    (parallelMostSimilar dotTopn 1 [0] [[(1:ℚ)], [0]] 2 ⟨.int32, []⟩).1.1.dtype
      = DType.int32 ∧
    ([(0 : Int), 1] : List Int).length = 2 :=
  ⟨(wrapped_topk_output_shape_dtype 1 [0] [[(1:ℚ)], [0]] [[(1:ℚ)], [0]]
      [[(1:ℚ)], [0]] 2 ⟨.int32, []⟩).1.1,
   (wrapped_topk_output_shape_dtype 1 [0] [[(1:ℚ)], [0]] [[(1:ℚ)], [0]]
      [[(1:ℚ)], [0]] 2 ⟨.int32, []⟩).1.2.2.2.2.1 [(0 : Int), 1]
     (by norm_num +decide [parallelMostSimilar, dotTopn, eligibleRows, scoredCands,
        rowAt, dotProd, selectTopk, List.insertionSort, List.orderedInsert,
        slotBefore])⟩

/-- C2 (counterexample): with factors `[[1], [-1]]`, query `0`, pool
`[1]` and `topk = 2`, the only eligible candidate scores `-1`; the row
comes back as keys `[1, -1]`, scores `[-1, 0]`, and the padded slot's
zero score is larger than the real slot's negative score, so the full
`topk` slot list is not sorted descending. -/
theorem rowSlotsSorted_counterexample :
    ¬ (∀ kr sr, (kr, sr) ∈ (dotTopn [0] [[(1:ℚ)], [-1]] [[(1:ℚ)], [-1]]
        ⟨.int32, [1]⟩ 2 1).1.zip (dotTopn [0] [[(1:ℚ)], [-1]] [[(1:ℚ)], [-1]]
        ⟨.int32, [1]⟩ 2 1).2 → rowSlotsSorted kr sr) := by
  intro h
  have hm : (([(1 : Int), -1], [(-1 : ℚ), 0])) ∈
      (dotTopn [0] [[(1:ℚ)], [-1]] [[(1:ℚ)], [-1]] ⟨.int32, [1]⟩ 2 1).1.zip
      (dotTopn [0] [[(1:ℚ)], [-1]] [[(1:ℚ)], [-1]] ⟨.int32, [1]⟩ 2 1).2 := by
    have : dotTopn [0] [[(1:ℚ)], [-1]] [[(1:ℚ)], [-1]] ⟨.int32, [1]⟩ 2 1 =
        ([[(1 : Int), -1]], [[(-1 : ℚ), 0]]) := by
      norm_num +decide [dotTopn, eligibleRows, scoredCands, rowAt, dotProd,
        selectTopk, List.insertionSort, List.orderedInsert, slotBefore]
    rw [this]
    simp
  have h2 := h _ _ hm
  unfold rowSlotsSorted at h2
  have h3 : slotBeforeI ((1 : Int), (-1 : ℚ)) ((-1 : Int), (0 : ℚ)) := by
    simpa using h2
  rcases h3 with h3 | ⟨h3, _⟩ <;> norm_num at h3

/-- C2 (amended): for every query row of the spec-modelled `dot_topn`
output, the non-padding slots (key ≠ -1) are sorted in descending score
order with equal scores ordered by ascending candidate index; padded
slots carry the sentinel key `-1`, and the output is independent of the
worker count (deterministic and reproducible across runs). -/
theorem dotTopn_rows_sorted (indexes : List Nat) (FP FQ : Mat)
    (pool : NpIntVec) (topk nw nw' : Nat) :
    (∀ kr sr, (kr, sr) ∈ (dotTopn indexes FP FQ pool topk nw).1.zip
        (dotTopn indexes FP FQ pool topk nw).2 →
      List.Pairwise slotBeforeI ((kr.zip sr).filter (fun p => p.1 != -1))) ∧
    dotTopn indexes FP FQ pool topk nw = dotTopn indexes FP FQ pool topk nw' := by
  refine ⟨?_, rfl⟩
  intro kr sr h
  obtain ⟨q, _, hrow⟩ := dotTopn_zip_rows indexes FP FQ pool topk nw kr sr h
  rw [hrow]
  exact selectTopk_filter_sorted _ _

/-- C2 (witness): the sortedness of the non-padding slots evaluated on
a concrete two-candidate instance. -/
theorem dotTopn_rows_sorted_witness :
    List.Pairwise slotBeforeI ((([(0 : Int), 1]).zip [(1 : ℚ), 0]).filter
      (fun p => p.1 != -1)) :=
  (dotTopn_rows_sorted [0] [[(1:ℚ)], [0]] [[(1:ℚ)], [0]] ⟨.int32, []⟩ 2 1 1).1
    [(0 : Int), 1] [(1 : ℚ), 0]
    (by
      have : dotTopn [0] [[(1:ℚ)], [0]] [[(1:ℚ)], [0]] ⟨.int32, []⟩ 2 1 =
          ([[(0 : Int), 1]], [[(1 : ℚ), 0]]) := by
        norm_num +decide [dotTopn, eligibleRows, scoredCands, rowAt, dotProd,
          selectTopk, List.insertionSort, List.orderedInsert, slotBefore]
      rw [this]
      simp)

/-- C3: with `pool=None`, every kernel invocation performed by
`ParALS.most_similar` and `ParALS.topk_recommendation` receives the
empty int32 pool array, and the spec-modelled kernel treats an empty
pool as unrestricted: its output equals the output on the pool listing
every candidate row. -/
theorem pool_none_is_unrestricted (K : Kernel) (st : ALSState)
    (keys : List Key) (topk : Nat) (group : String) (rep : Bool)
    (idx : List Nat) (FP FQ : Mat) (k nw : Nat) :
    (∀ c ∈ (parALSMostSimilar K st keys topk group none rep).2,
      c.pool = ⟨.int32, []⟩) ∧
    (∀ c ∈ (parALSTopkRecommendation K st keys topk none rep).2,
      c.pool = ⟨.int32, []⟩) ∧
    dotTopn idx FP FQ ⟨.int32, []⟩ k nw =
      dotTopn idx FP FQ ⟨.int32, List.range FQ.length⟩ k nw := by
  refine ⟨?_, ?_, ?_⟩
  · intro c hc
    simp only [parALSMostSimilar, translatePool, parallelMostSimilar] at hc
    split at hc <;> simp_all
    split at hc <;> simp_all
  · intro c hc
    simp only [parALSTopkRecommendation, translatePool,
      parallelTopkRecommendation] at hc
    split at hc <;> simp_all
  · have he : eligibleRows FQ ([] : List Nat) =
        eligibleRows FQ (List.range FQ.length) := by
      unfold eligibleRows
      rcases Nat.eq_zero_or_pos FQ.length with h | h
      · simp [h]
      · have hne : ¬ (List.range FQ.length).isEmpty = true := by
          simp only [List.isEmpty_iff, List.range_eq_nil]
          omega
        simp [hne]
    unfold dotTopn
    rw [show (⟨.int32, []⟩ : NpIntVec).data = ([] : List Nat) from rfl,
      show (⟨.int32, List.range FQ.length⟩ : NpIntVec).data =
        List.range FQ.length from rfl, he]

/-- C3 (witness): the kernel call performed by a concrete
`most_similar` with `pool=None` carries the empty int32 pool. -/
theorem pool_none_is_unrestricted_witness :
    (⟨[0], stA.Q, stA.Q, ⟨.int32, []⟩, 2, 1⟩ : KernelCall).pool =
      ⟨.int32, []⟩ :=
  (pool_none_is_unrestricted dotTopn stA ["a"] 2 "item" false [] [] [] 0 0).1
    ⟨[0], stA.Q, stA.Q, ⟨.int32, []⟩, 2, 1⟩
    (by
      have : parALSMostSimilar dotTopn stA ["a"] 2 "item" none false =
          (.ok ({ stA with nrzQ := true }, .raw ⟨.int32, [[0, 1]]⟩,
            ⟨.float32, [[1, 0]]⟩),
            [⟨[0], stA.Q, stA.Q, ⟨.int32, []⟩, 2, 1⟩]) := by
        norm_num +decide [parALSMostSimilar, alsNormalize, translatePool,
          parallelMostSimilar, stA, dotTopn, eligibleRows, scoredCands, rowAt,
          dotProd, selectTopk, List.insertionSort, List.orderedInsert,
          slotBefore, List.filterMap_cons, List.filterMap_nil]
      rw [this]
      simp)

/-- C5: whenever either factor matrix is in the normalized state,
`ParALS.topk_recommendation` raises `RuntimeError` with no kernel
invocation and no result, whatever kernel is plugged in. -/
theorem topk_recommendation_rejects_normalized (K : Kernel) (st : ALSState)
    (keys : List Key) (topk : Nat) (pool : Option (List Key)) (rep : Bool)
    (h : st.nrzP = true ∨ st.nrzQ = true) :
    parALSTopkRecommendation K st keys topk pool rep =
      (.error (.runtimeError
        "Cannot make topk recommendation with normalized factors"), []) := by
  unfold parALSTopkRecommendation
  rcases h with h | h <;> simp [h]

/-- C5 (witness): the rejection evaluated on a concrete state with
normalized user factors. -/
theorem topk_recommendation_rejects_normalized_witness :
    parALSTopkRecommendation dotTopn stN ["a"] 10 none false =
      (.error (.runtimeError
        "Cannot make topk recommendation with normalized factors"), []) :=
  topk_recommendation_rejects_normalized dotTopn stN ["a"] 10 none false
    (Or.inl rfl)

/-- C6: when a pool is explicitly supplied and its translation yields
zero valid rows, `most_similar` raises `RuntimeError('pool is empty')`
before any kernel invocation, and `topk_recommendation` likewise raises
a `RuntimeError` before any kernel invocation (the same message, or the
normalized-factors one when that check fires first); the kernel is
never called. -/
theorem empty_requested_pool_raises (K : Kernel) (st : ALSState)
    (stw : W2VState) (keys : List Key) (topk : Nat) (group : String)
    (p : List Key) (rep : Bool) :
    ((p.map (st.resolve group)).filterMap id = [] →
      parALSMostSimilar K st keys topk group (some p) rep =
        (.error (.runtimeError "pool is empty"), [])) ∧
    ((p.map (st.resolve "item")).filterMap id = [] →
      ∃ msg, parALSTopkRecommendation K st keys topk (some p) rep =
        (.error (.runtimeError msg), [])) ∧
    ((p.map (stw.resolve "item")).filterMap id = [] →
      parW2VMostSimilar K stw keys topk (some p) rep =
        (.error (.runtimeError "pool is empty"), [])) := by
  refine ⟨?_, ?_, ?_⟩
  · intro h
    simp only [parALSMostSimilar, alsNormalize_resolve, translatePool, h]
    simp
  · intro h
    unfold parALSTopkRecommendation
    by_cases hn : (st.nrzP || st.nrzQ) = true
    · exact ⟨"Cannot make topk recommendation with normalized factors",
        by simp [hn]⟩
    · refine ⟨"pool is empty", ?_⟩
      simp only [hn]
      unfold translatePool
      simp [h, hn]
  · intro h
    simp only [parW2VMostSimilar, w2vNormalize_resolve, translatePool, h]
    simp

/-- C6 (witness): a concretely supplied pool whose keys all fail to
resolve triggers the error on a concrete state. -/
theorem empty_requested_pool_raises_witness :
    parALSMostSimilar dotTopn stE ["a"] 2 "item" (some ["z"]) false =
      (.error (.runtimeError "pool is empty"), []) :=
  (empty_requested_pool_raises dotTopn stE stW ["a"] 2 "item" ["z"] false).1
    (by simp [stE, stA])

/-- C8: the unsupported operations `ParBPRMF.topk_recommendation` and
`ParW2V.topk_recommendation` signal failure for every input and every
kernel, producing no kernel invocation and no (keys, scores) result. -/
theorem unsupported_topk_recommendation (K : Kernel) (st : ALSState)
    (stw : W2VState) (keys : List Key) (topk : Nat)
    (pool : Option (List Key)) (rep : Bool) :
    parBPRMFTopkRecommendation K st keys topk pool rep =
      (.error .notImplemented, []) ∧
    parW2VTopkRecommendation K stw keys topk pool =
      (.error .notImplemented, []) :=
  ⟨rfl, rfl⟩

/-- C4: for every invocation of `most_similar` or `topk_recommendation`
that returns a result, every factor matrix passed to the kernel equals
the corresponding factor matrix of the algorithm state after the call
returns — the top-k computation mutates neither the query factor
matrix nor the candidate factor matrix. -/
theorem factors_not_mutated (K : Kernel) (st : ALSState) (stw : W2VState)
    (keys : List Key) (topk : Nat) (group : String)
    (pool : Option (List Key)) (rep : Bool) :
    (∀ st' out log, parALSMostSimilar K st keys topk group pool rep =
        (.ok (st', out), log) →
      ∀ c ∈ log, c.FP = st'.Q ∧ c.FQ = st'.Q) ∧
    (∀ st' out log, parALSTopkRecommendation K st keys topk pool rep =
        (.ok (st', out), log) →
      ∀ c ∈ log, c.FP = st'.P ∧ c.FQ = st'.Q) ∧
    (∀ st' out log, parW2VMostSimilar K stw keys topk pool rep =
        (.ok (st', out), log) →
      ∀ c ∈ log, c.FP = st'.L0 ∧ c.FQ = st'.L0) := by
  refine ⟨?_, ?_, ?_⟩
  · intro st' out log h c hc
    simp only [parALSMostSimilar, parallelMostSimilar] at h
    split at h
    · exact absurd h (by simp)
    · split at h
      · simp only [Prod.mk.injEq, Except.ok.injEq] at h
        obtain ⟨⟨hst, _⟩, hlog⟩ := h
        subst hst
        subst hlog
        rw [List.mem_singleton] at hc
        subst hc
        exact ⟨rfl, rfl⟩
      · split at h
        · simp only [Prod.mk.injEq, Except.ok.injEq] at h
          obtain ⟨⟨hst, _⟩, hlog⟩ := h
          subst hst
          subst hlog
          rw [List.mem_singleton] at hc
          subst hc
          exact ⟨rfl, rfl⟩
        · exact absurd h (by simp)
  · intro st' out log h c hc
    simp only [parALSTopkRecommendation, parallelTopkRecommendation] at h
    split at h
    · exact absurd h (by simp)
    · split at h
      · exact absurd h (by simp)
      · simp only [Prod.mk.injEq, Except.ok.injEq] at h
        obtain ⟨⟨hst, _⟩, hlog⟩ := h
        subst hst
        subst hlog
        rw [List.mem_singleton] at hc
        subst hc
        exact ⟨rfl, rfl⟩
  · intro st' out log h c hc
    simp only [parW2VMostSimilar, parallelMostSimilar] at h
    split at h
    · exact absurd h (by simp)
    · simp only [Prod.mk.injEq, Except.ok.injEq] at h
      obtain ⟨⟨hst, _⟩, hlog⟩ := h
      subst hst
      subst hlog
      rw [List.mem_singleton] at hc
      subst hc
      exact ⟨rfl, rfl⟩

/-- C4 (witness): the concrete kernel call performed by a concrete
`most_similar` carries exactly the factor matrix held by the returned
state. -/
theorem factors_not_mutated_witness :
    (⟨[0], stA.Q, stA.Q, ⟨.int32, []⟩, 2, 1⟩ : KernelCall).FP =
      ({ stA with nrzQ := true } : ALSState).Q ∧
    (⟨[0], stA.Q, stA.Q, ⟨.int32, []⟩, 2, 1⟩ : KernelCall).FQ =
      ({ stA with nrzQ := true } : ALSState).Q :=
  (factors_not_mutated dotTopn stA stW ["a"] 2 "item" none false).1
    { stA with nrzQ := true }
    (.raw ⟨.int32, [[0, 1]]⟩, ⟨.float32, [[1, 0]]⟩)
    [⟨[0], stA.Q, stA.Q, ⟨.int32, []⟩, 2, 1⟩]
    (by
      norm_num +decide [parALSMostSimilar, alsNormalize, translatePool,
        parallelMostSimilar, stA, dotTopn, eligibleRows, scoredCands, rowAt,
        dotProd, selectTopk, List.insertionSort, List.orderedInsert,
        slotBefore, List.filterMap_cons, List.filterMap_nil])
    ⟨[0], stA.Q, stA.Q, ⟨.int32, []⟩, 2, 1⟩
    (by simp)

/-- Filtering the zipped (key, optional index) pairs on resolvability
yields exactly the keys whose resolution succeeds. -/
theorem zip_filterMap_isSome (f : Key → Option Nat) (keys : List Key) :
    (keys.zip (keys.map f)).filterMap
      (fun ki => if ki.2.isSome then some ki.1 else none) =
    keys.filter (fun k => (f k).isSome) := by
  induction keys with
  | nil => rfl
  | cons k t ih =>
    simp only [List.map_cons, List.zip_cons_cons, List.filterMap_cons,
      List.filter_cons]
    cases h : f k <;> simp [h, ih]

/-- The resolved index list corresponds, position by position, to the
resolutions of the surviving (resolvable) keys. -/
theorem filterMap_map_some (f : Key → Option Nat) (keys : List Key) :
    ((keys.map f).filterMap id).map some =
      (keys.filter (fun k => (f k).isSome)).map f := by
  induction keys with
  | nil => rfl
  | cons k t ih => cases h : f k <;> simp [h] at ih ⊢ <;> simp [ih]

/-- The resolved index list has exactly one entry per surviving key. -/
theorem filterMap_length_filter (f : Key → Option Nat) (keys : List Key) :
    ((keys.map f).filterMap id).length =
      (keys.filter (fun k => (f k).isSome)).length := by
  have h := congrArg List.length (filterMap_map_some f keys)
  simpa using h

/-- C7: query keys that resolve to no index are dropped before the
kernel is invoked: every kernel call receives exactly the resolved row
indexes, in the order of the surviving keys (`c.indexes.map some`
equals the surviving keys' resolutions, so position `i` of the kernel
input is the resolution of surviving key `i`);
`ParALS.topk_recommendation` returns exactly the surviving keys, and
with the spec-modelled kernel its score rows are in one-to-one ordered
correspondence with them. -/
theorem kernel_sees_only_resolved_keys (K : Kernel) (st : ALSState)
    (keys : List Key) (topk : Nat) (group : String)
    (pool : Option (List Key)) (rep : Bool) :
    (∀ st' out log, parALSMostSimilar K st keys topk group pool rep =
        (.ok (st', out), log) →
      ∀ c ∈ log, c.indexes.map some =
        (keys.filter (fun k => (st.resolve group k).isSome)).map
          (st.resolve group)) ∧
    (∀ st' ks out log, parALSTopkRecommendation K st keys topk pool rep =
        (.ok (st', ks, out), log) →
      ks = keys.filter (fun k => (st.resolve "user" k).isSome) ∧
      ∀ c ∈ log, c.indexes.map some =
        (keys.filter (fun k => (st.resolve "user" k).isSome)).map
          (st.resolve "user")) ∧
    (∀ st' ks tk sc log, parALSTopkRecommendation dotTopn st keys topk pool rep =
        (.ok (st', ks, tk, sc), log) →
      sc.data.length = ks.length) := by
  refine ⟨?_, ?_, ?_⟩
  · intro st' out log h c hc
    simp only [parALSMostSimilar, parallelMostSimilar, alsNormalize_resolve] at h
    split at h
    · exact absurd h (by simp)
    · split at h
      · simp only [Prod.mk.injEq, Except.ok.injEq] at h
        obtain ⟨_, hlog⟩ := h
        subst hlog
        rw [List.mem_singleton] at hc
        subst hc
        exact filterMap_map_some (st.resolve group) keys
      · split at h
        · simp only [Prod.mk.injEq, Except.ok.injEq] at h
          obtain ⟨_, hlog⟩ := h
          subst hlog
          rw [List.mem_singleton] at hc
          subst hc
          exact filterMap_map_some (st.resolve group) keys
        · exact absurd h (by simp)
  · intro st' ks out log h
    simp only [parALSTopkRecommendation, parallelTopkRecommendation] at h
    split at h
    · exact absurd h (by simp)
    · split at h
      · exact absurd h (by simp)
      · simp only [Prod.mk.injEq, Except.ok.injEq] at h
        obtain ⟨⟨_, hks, _⟩, hlog⟩ := h
        subst hlog
        constructor
        · rw [← hks, zip_filterMap_isSome]
        · intro c hc
          rw [List.mem_singleton] at hc
          subst hc
          exact filterMap_map_some (st.resolve "user") keys
  · intro st' ks tk sc log h
    simp only [parALSTopkRecommendation, parallelTopkRecommendation] at h
    split at h
    · exact absurd h (by simp)
    · split at h
      · exact absurd h (by simp)
      · rename_i parr htp
        simp only [Prod.mk.injEq, Except.ok.injEq] at h
        obtain ⟨⟨_, hks, _, hsc⟩, _⟩ := h
        rw [← hsc, ← hks, zip_filterMap_isSome]
        exact ((dotTopn_shape ((keys.map (st.resolve "user")).filterMap id)
          st.P st.Q parr topk st.numWorkers).2.1).trans
          (filterMap_length_filter (st.resolve "user") keys)

/-- C7 (witness): on a concrete call with one resolvable and one
unresolvable key, the returned key list is exactly the surviving key. -/
theorem kernel_sees_only_resolved_keys_witness :
    (["a"] : List Key) =
      (["a", "zz"] : List Key).filter
        (fun k => (stA.resolve "user" k).isSome) :=
  ((kernel_sees_only_resolved_keys dotTopn stA ["a", "zz"] 1 "item" none
      false).2.1 stA ["a"]
    (.raw ⟨.int32, [[0]]⟩, ⟨.float32, [[1]]⟩)
    [⟨[0], stA.P, stA.Q, ⟨.int32, []⟩, 1, 1⟩]
    (by
      norm_num +decide [parALSTopkRecommendation, translatePool,
        parallelTopkRecommendation, stA, dotTopn, eligibleRows, scoredCands,
        rowAt, dotProd, selectTopk, List.insertionSort, List.orderedInsert,
        slotBefore, List.filterMap_cons, List.filterMap_nil])).1

/-- C9: with `repr=True`, the returned key lists are exactly the
external identifiers of the kernel's result slots whose key is not the
`-1` padding sentinel, in slot order — every `-1` entry is skipped and
no sentinel survives into the expanded output. -/
theorem repr_expansion_skips_padding (K : Kernel) (st : ALSState)
    (keys : List Key) (topk : Nat) (pool : Option (List Key)) :
    (∀ st' tk sc log, parALSMostSimilar K st keys topk "item" pool true =
        (.ok (st', tk, sc), log) →
      ∀ c ∈ log, tk = TopksOut.expanded
        ((K c.indexes c.FP c.FQ c.pool c.topk c.numWorkers).1.map
          (fun tt => (tt.filter (fun t => t != -1)).map st'.itemids))) ∧
    (∀ st' tk sc log, parALSMostSimilar K st keys topk "user" pool true =
        (.ok (st', tk, sc), log) →
      ∀ c ∈ log, tk = TopksOut.expanded
        ((K c.indexes c.FP c.FQ c.pool c.topk c.numWorkers).1.map
          (fun tt => (tt.filter (fun t => t != -1)).map st'.userids))) ∧
    (∀ st' ks tk sc log, parALSTopkRecommendation K st keys topk pool true =
        (.ok (st', ks, tk, sc), log) →
      ∀ c ∈ log, tk = TopksOut.expanded
        ((K c.indexes c.FP c.FQ c.pool c.topk c.numWorkers).1.map
          (fun tt => (tt.filter (fun t => t != -1)).map st'.itemids))) := by
  refine ⟨?_, ?_, ?_⟩
  · intro st' tk sc log h c hc
    simp only [parALSMostSimilar, parallelMostSimilar, expandIds] at h
    split at h
    · exact absurd h (by simp)
    · simp only [if_true, Prod.mk.injEq, Except.ok.injEq] at h
      obtain ⟨⟨hst, htk, _⟩, hlog⟩ := h
      subst hst
      subst hlog
      rw [List.mem_singleton] at hc
      subst hc
      exact htk.symm
  · intro st' tk sc log h c hc
    simp only [parALSMostSimilar, parallelMostSimilar, expandIds] at h
    split at h
    · exact absurd h (by simp)
    · rw [if_neg (by decide : ¬ (("user" : String) = "item"))] at h
      simp only [if_true, Prod.mk.injEq, Except.ok.injEq] at h
      obtain ⟨⟨hst, htk, _⟩, hlog⟩ := h
      subst hst
      subst hlog
      rw [List.mem_singleton] at hc
      subst hc
      exact htk.symm
  · intro st' ks tk sc log h c hc
    simp only [parALSTopkRecommendation, parallelTopkRecommendation,
      expandIds] at h
    split at h
    · exact absurd h (by simp)
    · split at h
      · exact absurd h (by simp)
      · simp only [Prod.mk.injEq, Except.ok.injEq] at h
        obtain ⟨⟨hst, _, htk, _⟩, hlog⟩ := h
        subst hst
        subst hlog
        rw [List.mem_singleton] at hc
        subst hc
        exact htk.symm

/-- C9 (witness): concrete expansion — the row `[0, 1]` contains no
padding, so both slots expand to their item ids. -/
theorem repr_expansion_skips_padding_witness :
    TopksOut.expanded [["it", "it"]] = TopksOut.expanded
      ((dotTopn [0] stA.Q stA.Q ⟨.int32, []⟩ 2 1).1.map
        (fun tt => (tt.filter (fun t => t != -1)).map
          ({ stA with nrzQ := true } : ALSState).itemids)) :=
  (repr_expansion_skips_padding dotTopn stA ["a"] 2 none).1
    { stA with nrzQ := true }
    (TopksOut.expanded [["it", "it"]]) ⟨.float32, [[1, 0]]⟩
    [⟨[0], stA.Q, stA.Q, ⟨.int32, []⟩, 2, 1⟩]
    (by
      norm_num +decide [parALSMostSimilar, alsNormalize, translatePool,
        parallelMostSimilar, expandIds, stA, dotTopn, eligibleRows,
        scoredCands, rowAt, dotProd, selectTopk, List.insertionSort,
        List.orderedInsert, slotBefore, List.filterMap_cons,
        List.filterMap_nil])
    ⟨[0], stA.Q, stA.Q, ⟨.int32, []⟩, 2, 1⟩
    (by simp)

/-- C10 (counterexample): the pool-emptiness check precedes the group
dispatch, so a group other than `item`/`user` together with an
explicitly supplied pool that resolves to zero rows raises
`RuntimeError('pool is empty')`, not `ValueError` — the claim that any
other group value raises `ValueError` fails at this input. -/
theorem group_dispatch_counterexample :
    (parALSMostSimilar dotTopn stE ["a"] 1 "foo" (some ["z"]) false).1 =
      .error (.runtimeError "pool is empty") ∧
    PyErr.runtimeError "pool is empty" ≠
      PyErr.valueError ("Not supported group: " ++ "foo") := by
  constructor
  · norm_num +decide [parALSMostSimilar, alsNormalize, translatePool, stE, stA]
  · decide

/-- C10 (amended): `ParALS.most_similar` passes the same (normalized)
factor matrix `algo.Q` to the kernel as both the query matrix and the
candidate matrix, for group `item` as well as `user`; with `repr=False`
the two groups run identical code (given equal id resolution and an
already-normalized state, the results coincide — only the repr
key-expansion table differs between the branches); any other group
value produces an error with no kernel invocation: `ValueError` when
the pool translation succeeds (in particular whenever `pool=None`), and
the pool-emptiness `RuntimeError` otherwise, since that check precedes
the group dispatch. -/
theorem most_similar_group_dispatch (K : Kernel) (st : ALSState)
    (keys : List Key) (topk : Nat) (group : String)
    (pool : Option (List Key)) (rep : Bool) :
    ((group = "item" ∨ group = "user") →
      ∀ st' out log, parALSMostSimilar K st keys topk group pool rep =
          (.ok (st', out), log) →
        ∀ c ∈ log, c.FP = (alsNormalize st group).Q ∧
          c.FQ = (alsNormalize st group).Q) ∧
    (st.nrzP = true → st.nrzQ = true →
      st.resolve "item" = st.resolve "user" →
      parALSMostSimilar K st keys topk "item" pool false =
        parALSMostSimilar K st keys topk "user" pool false) ∧
    (group ≠ "item" → group ≠ "user" →
      (parALSMostSimilar K st keys topk group pool rep).2 = [] ∧
      (∃ e, (parALSMostSimilar K st keys topk group pool rep).1 = .error e) ∧
      (∀ parr, translatePool st.resolve group pool = .ok parr →
        parALSMostSimilar K st keys topk group pool rep =
          (.error (.valueError ("Not supported group: " ++ group)), []))) := by
  refine ⟨?_, ?_, ?_⟩
  · intro _ st' out log h c hc
    simp only [parALSMostSimilar, parallelMostSimilar] at h
    split at h
    · exact absurd h (by simp)
    · split at h
      · simp only [Prod.mk.injEq, Except.ok.injEq] at h
        obtain ⟨⟨hst, _⟩, hlog⟩ := h
        subst hst
        subst hlog
        rw [List.mem_singleton] at hc
        subst hc
        exact ⟨rfl, rfl⟩
      · split at h
        · simp only [Prod.mk.injEq, Except.ok.injEq] at h
          obtain ⟨⟨hst, _⟩, hlog⟩ := h
          subst hst
          subst hlog
          rw [List.mem_singleton] at hc
          subst hc
          exact ⟨rfl, rfl⟩
        · exact absurd h (by simp)
  · intro hP hQ hres
    have h1 : alsNormalize st "item" = st := by
      unfold alsNormalize
      simp [hQ]
    have h2 : alsNormalize st "user" = st := by
      unfold alsNormalize
      simp [hP]
    have htp : translatePool st.resolve "item" pool =
        translatePool st.resolve "user" pool := by
      unfold translatePool
      cases pool <;> simp [hres]
    simp only [parALSMostSimilar, h1, h2, hres, htp]
    norm_num +decide
  · intro h1 h2
    have hn : alsNormalize st group = st := by
      unfold alsNormalize
      simp [h1, h2]
    cases htp : translatePool st.resolve group pool with
    | error e =>
        have heq : parALSMostSimilar K st keys topk group pool rep =
            (.error e, []) := by
          simp only [parALSMostSimilar, hn, htp]
        refine ⟨by rw [heq], ⟨e, by rw [heq]⟩, ?_⟩
        intro parr hparr
        exact absurd hparr (by simp)
    | ok parr =>
        have heq : parALSMostSimilar K st keys topk group pool rep =
            (.error (.valueError ("Not supported group: " ++ group)), []) := by
          simp only [parALSMostSimilar, hn, htp]
          rw [if_neg h1, if_neg h2]
        exact ⟨by rw [heq], ⟨.valueError ("Not supported group: " ++ group),
          by rw [heq]⟩, fun _ _ => heq⟩

/-- C10 (witness): concrete instance — the kernel call of an `item`
group query carries the normalized `Q` as both factor matrices. -/
theorem most_similar_group_dispatch_witness :
    (⟨[0], stA.Q, stA.Q, ⟨.int32, []⟩, 2, 1⟩ : KernelCall).FP =
      (alsNormalize stA "item").Q ∧
    (⟨[0], stA.Q, stA.Q, ⟨.int32, []⟩, 2, 1⟩ : KernelCall).FQ =
      (alsNormalize stA "item").Q :=
  (most_similar_group_dispatch dotTopn stA ["a"] 2 "item" none false).1
    (Or.inl rfl)
    { stA with nrzQ := true }
    (.raw ⟨.int32, [[0, 1]]⟩, ⟨.float32, [[1, 0]]⟩)
    [⟨[0], stA.Q, stA.Q, ⟨.int32, []⟩, 2, 1⟩]
    (by
      norm_num +decide [parALSMostSimilar, alsNormalize, translatePool,
        parallelMostSimilar, stA, dotTopn, eligibleRows, scoredCands, rowAt,
        dotProd, selectTopk, List.insertionSort, List.orderedInsert,
        slotBefore, List.filterMap_cons, List.filterMap_nil])
    ⟨[0], stA.Q, stA.Q, ⟨.int32, []⟩, 2, 1⟩
    (by simp)
